import Mathlib

/-!
Verification development for the ECA2 customer-data-platform core:
the Segment Predicate Evaluator, the Segment Service, the Flow Schedule
Planner, the Campaign Lifecycle state machine, and the frontend flow-step
editor and segment-builder operator tables.

The backend service code is not present in the repository snapshot (only
its documentation under `docs/` and its frontend callers are), so the
Evaluator, Segment Service, Planner and Lifecycle are modelled from the
specification; the operator tables and the flow-step editor operations are
embedded directly from the frontend sources
(`src/unnamed/part_005`, `src/frontend/src/pages/Flows.tsx`).

Timestamps are modelled as integers counting minutes; one day is 1440
minutes. A calendar day is the floor of a timestamp divided by 1440.
-/

namespace ECA2

def minutesPerDay : Int := 1440

/-- The seven customer fields of the data model (spec section 3). -/
inductive FieldName
  | totalOrderValue
  | orderCount
  | lastOrderDate
  | shippingState
  | shippingCountry
  | email
  | marketingOptIn
  deriving DecidableEq

/-- Operator symbols appearing in segment criteria. -/
inductive OperatorSymbol
  | gt
  | lt
  | gte
  | lte
  | eq
  | contains
  deriving DecidableEq

/-- A criterion value: a scalar (number, string, boolean), an absolute
date, or a relative-date token `relative_<N>` (spec section 3). -/
inductive CriterionValue
  | num (n : Int)
  | str (s : String)
  | bool (b : Bool)
  | date (t : Int)
  | rel (n : Nat)
  deriving DecidableEq

/-- One field/operator/value test within a segment definition. -/
structure Criterion where
  field : FieldName
  operator : OperatorSymbol
  value : CriterionValue
  deriving DecidableEq

inductive LogicalOperator
  | AND
  | OR
  deriving DecidableEq

/-- A segment definition: one logical operator over a flat criteria list. -/
structure SegmentDefinition where
  logicalOperator : LogicalOperator
  criteria : List Criterion
  deriving DecidableEq

/-- Immutable customer snapshot used for evaluation (spec section 3). -/
structure CustomerRecord where
  totalOrderValue : Int
  orderCount : Int
  lastOrderDate : Option Int
  shippingState : Option String
  shippingCountry : Option String
  email : String
  marketingOptIn : Bool
  deriving DecidableEq

/-- Case-insensitive string equality (spec section 4.1: string `eq` is
case-insensitive). -/
def strEq (a b : String) : Bool := a.toLower == b.toLower

/-- Does the second list start with the first? -/
def charsStartWith : List Char → List Char → Bool
  | [], _ => true
  | _ :: _, [] => false
  | a :: as, b :: bs => a == b && charsStartWith as bs

/-- Does the second list contain the first as a contiguous segment? -/
def charsHaveSegment : List Char → List Char → Bool
  | needle, [] => needle.isEmpty
  | needle, c :: rest =>
    charsStartWith needle (c :: rest) || charsHaveSegment needle rest

/-- Case-insensitive substring test (spec section 4.1: string `contains`
is case-insensitive). -/
def strContains (hay needle : String) : Bool :=
  charsHaveSegment needle.toLower.toList hay.toLower.toList

/-- Numeric comparison directed by the operator symbol. -/
def numCompare (op : OperatorSymbol) (x v : Int) : Bool :=
  match op with
  | .gt => decide (v < x)
  | .lt => decide (x < v)
  | .gte => decide (v ≤ x)
  | .lte => decide (x ≤ v)
  | .eq => decide (x = v)
  | .contains => false

/-- Modelled from the spec: a missing `lastOrderDate` is treated as
"infinitely old", i.e. a distance of a very large number of days; the
repository documentation (`docs/flows/segment-evaluation.md`) fixes that
number at 999999 days. -/
def NEVER_ORDERED_DAYS : Int := 999999

/-- Modelled from the spec: resolve a date-criterion value to an absolute
instant; `relative_N` resolves to `now - N` days (spec section 4.2). -/
def resolveDateValue (now : Int) (v : CriterionValue) : Option Int :=
  match v with
  | .date t => some t
  | .rel n => some (now - (n : Int) * minutesPerDay)
  | _ => none

/-- Modelled from the spec: the effective last-order instant of a record,
with absence mapped to 999999 days before the evaluation time. -/
def effectiveLastOrder (now : Int) (d : Option Int) : Int :=
  match d with
  | some t => t
  | none => now - NEVER_ORDERED_DAYS * minutesPerDay

/-- Two instants fall on the same calendar day. -/
def sameCalendarDay (a b : Int) : Bool :=
  Int.fdiv a minutesPerDay == Int.fdiv b minutesPerDay

/-- Modelled from the spec: date comparison for `lastOrderDate` — resolve
the value to an instant, then `lt` means "more recent than that instant",
`gt` means "older than that instant", `eq` means "same calendar day"
(spec section 4.2). -/
def dateCompare (op : OperatorSymbol) (now : Int)
    (lastOrder : Option Int) (v : CriterionValue) : Bool :=
  match resolveDateValue now v with
  | none => false
  | some instant =>
    let d := effectiveLastOrder now lastOrder
    match op with
    | .lt => decide (instant < d)
    | .gt => decide (d < instant)
    | .eq => sameCalendarDay d instant
    | _ => false

/-- String-field comparison; an absent field is a non-match
(spec section 4.1). -/
def strFieldCompare (op : OperatorSymbol) (x : Option String)
    (v : CriterionValue) : Bool :=
  match x, v with
  | some s, .str t =>
    match op with
    | .eq => strEq s t
    | .contains => strContains s t
    | _ => false
  | _, _ => false

/-- Modelled from the spec: evaluate one criterion against a customer
record at evaluation time `now` (spec sections 4.1 and 4.2). The backend
evaluator is absent from the repository snapshot. -/
def evalCriterion (now : Int) (cust : CustomerRecord)
    (c : Criterion) : Bool :=
  match c.field with
  | .totalOrderValue =>
    match c.value with
    | .num v => numCompare c.operator cust.totalOrderValue v
    | _ => false
  | .orderCount =>
    match c.value with
    | .num v => numCompare c.operator cust.orderCount v
    | _ => false
  | .lastOrderDate => dateCompare c.operator now cust.lastOrderDate c.value
  | .shippingState => strFieldCompare c.operator cust.shippingState c.value
  | .shippingCountry => strFieldCompare c.operator cust.shippingCountry c.value
  | .email => strFieldCompare c.operator (some cust.email) c.value
  | .marketingOptIn =>
    match c.value, c.operator with
    | .bool b, .eq => cust.marketingOptIn == b
    | _, _ => false

inductive SegmentError
  | invalidDefinition
  deriving DecidableEq

/-- Combine the per-criterion booleans with the logical operator:
AND requires all true, OR requires at least one true (spec section 4.1). -/
def evalMatch (defn : SegmentDefinition) (cust : CustomerRecord)
    (now : Int) : Bool :=
  match defn.logicalOperator with
  | .AND => defn.criteria.all (evalCriterion now cust)
  | .OR => defn.criteria.any (evalCriterion now cust)

/-- Modelled from the spec: the Predicate Evaluator — an empty criteria
list is rejected as `InvalidDefinition`, never silently evaluated
(spec section 4.1). The backend evaluator is absent from the repository
snapshot. -/
def evaluate (defn : SegmentDefinition) (cust : CustomerRecord)
    (now : Int) : Except SegmentError Bool :=
  if defn.criteria.isEmpty then .error .invalidDefinition
  else .ok (evalMatch defn cust now)

/-- Modelled from the spec: `Segment Service.count` — the number of
customers for which `evaluate` is true; fails with `InvalidDefinition`
when `criteria` is empty (spec section 4.2). The backend service is
absent from the repository snapshot. -/
def count (defn : SegmentDefinition) (customers : List CustomerRecord)
    (now : Int) : Except SegmentError Nat :=
  if defn.criteria.isEmpty then .error .invalidDefinition
  else .ok (customers.countP (fun r => evalMatch defn r now))

/-- A customer who never ordered, for concrete instances. -/
def noOrderCustomer : CustomerRecord :=
  { totalOrderValue := 500
    orderCount := 0
    lastOrderDate := none
    shippingState := none
    shippingCountry := none
    email := "a@example.com"
    marketingOptIn := false }

/-- A customer with a recent order, for concrete instances. -/
def optInCustomer : CustomerRecord :=
  { totalOrderValue := 1500
    orderCount := 3
    lastOrderDate := some 0
    shippingState := some "CA"
    shippingCountry := some "US"
    email := "b@example.com"
    marketingOptIn := true }

/-- Step-specific configuration, a tagged variant per step type
(spec sections 3 and 9). -/
inductive StepConfig
  | sendEmail (subject bodyText : String)
  | wait (durationDays : Int)
  | sendPush (title message : String)
  | exitStep
  deriving DecidableEq

/-- A flow step: a `step_order` and a typed `config`, matching the
source schema `step_type`/`step_order`/`config`. -/
structure FlowStep where
  step_order : Nat
  config : StepConfig
  deriving DecidableEq

/-- A flow step paired with its computed absolute send time. -/
structure ScheduledStep where
  step : FlowStep
  absoluteSendTime : Int
  deriving DecidableEq

def isSendStep (s : FlowStep) : Bool :=
  match s.config with
  | .sendEmail _ _ => true
  | .sendPush _ _ => true
  | _ => false

def isExitStep (s : FlowStep) : Bool :=
  match s.config with
  | .exitStep => true
  | _ => false

/-- A step is either not a WAIT or waits a non-negative number of days. -/
def waitNonneg (s : FlowStep) : Bool :=
  match s.config with
  | .wait d => decide (0 ≤ d)
  | _ => true

/-- The `step_order` fields, read in list order, are `k, k+1, k+2, ...`. -/
def ordersFrom : Nat → List FlowStep → Bool
  | _, [] => true
  | k, s :: rest => s.step_order == k && ordersFrom (k + 1) rest

/-- The `step_order` fields form the contiguous ascending sequence
`1..n` over the `n` steps. -/
abbrev ordersOk (steps : List FlowStep) : Prop :=
  steps.map (fun s => s.step_order) = List.range' 1 steps.length

inductive FlowError
  | invalidFlow
  deriving DecidableEq

/-- Modelled from the spec: the planning fold — sends are scheduled at the
running time and do not advance it, WAIT advances the running time by
`durationDays`, EXIT terminates planning (spec section 4.3). The backend
planner is absent from the repository snapshot. -/
def planSteps : List FlowStep → Int → List ScheduledStep
  | [], _ => []
  | s :: rest, t =>
    match s.config with
    | .sendEmail _ _ => ⟨s, t⟩ :: planSteps rest t
    | .sendPush _ _ => ⟨s, t⟩ :: planSteps rest t
    | .wait d => planSteps rest (t + d * minutesPerDay)
    | .exitStep => []

/-- The running time starts at the campaign start date combined with the
start time of day, defaulting to midnight when absent (spec section 4.3).
`campaignStart` is a day number; `startTimeOfDay` is minutes past
midnight. -/
def startInstant (campaignStart : Int) (startTimeOfDay : Option Int) : Int :=
  campaignStart * minutesPerDay + startTimeOfDay.getD 0

/-- Modelled from the spec: `plan` — fails with `InvalidFlow` if the
`step_order` values are not a contiguous ascending sequence starting at 1
or a WAIT step has negative `durationDays`; otherwise folds the steps from
the start instant (spec section 4.3). The backend planner is absent from
the repository snapshot. -/
def plan (steps : List FlowStep) (campaignStart : Int)
    (startTimeOfDay : Option Int) : Except FlowError (List ScheduledStep) :=
  if ordersFrom 1 steps && steps.all waitNonneg then
    .ok (planSteps steps (startInstant campaignStart startTimeOfDay))
  else .error .invalidFlow

inductive CampaignStatus
  | draft
  | active
  | paused
  | completed
  deriving DecidableEq

inductive LifecycleEvent
  | activate
  | pause
  | complete
  | resume
  | edit
  deriving DecidableEq

inductive LifecycleError
  | invalidTransition
  deriving DecidableEq

/-- Modelled from the spec: the campaign lifecycle transition table
(spec section 4.4); every pair outside the table is rejected with
`InvalidTransition`. The backend lifecycle code is absent from the
repository snapshot. -/
def transition : CampaignStatus → LifecycleEvent → Except LifecycleError CampaignStatus
  | .draft, .activate => .ok .active
  | .active, .pause => .ok .paused
  | .active, .complete => .ok .completed
  | .paused, .resume => .ok .active
  | .paused, .complete => .ok .completed
  | .draft, .edit => .ok .draft
  | _, _ => .error .invalidTransition

/-- Run a sequence of lifecycle events from a state, stopping at the
first rejected transition. -/
def runEvents (s : CampaignStatus) : List LifecycleEvent → Except LifecycleError CampaignStatus
  | [] => .ok s
  | e :: es =>
    match transition s e with
    | .ok s2 => runEvents s2 es
    | .error err => .error err

/-- Embedded from `src/frontend/src/pages/Flows.tsx` (`addStep`): append a
fresh SEND_EMAIL step whose `step_order` is the previous length plus
one. -/
def addStep (steps : List FlowStep) : List FlowStep :=
  steps ++ [{ step_order := steps.length + 1, config := .sendEmail "" "" }]

/-- Renumbering `map((step, i) => step with step_order := i + 1)` of the
editor, starting the count at `k`. -/
def renumberFrom : Nat → List FlowStep → List FlowStep
  | _, [] => []
  | k, s :: rest => { s with step_order := k } :: renumberFrom (k + 1) rest

/-- Embedded from `src/frontend/src/pages/Flows.tsx` (`removeStep`): drop
the step at `index` (the source filters on the position, which is
`eraseIdx`), then renumber the remaining steps to `1..n-1` in their
retained order. -/
def removeStep (steps : List FlowStep) (index : Nat) : List FlowStep :=
  renumberFrom 1 (steps.eraseIdx index)

/-- Embedded from `src/unnamed/part_005` (`CUSTOMER_FIELDS`): each
selectable field with its declared type. -/
def CUSTOMER_FIELDS : List (String × String) :=
  [("total_order_value", "number"),
   ("order_count", "number"),
   ("days_since_last_order", "number"),
   ("last_order_date", "date"),
   ("shipping_state", "string"),
   ("shipping_country", "string"),
   ("email", "string"),
   ("marketing_opt_in", "boolean")]

/-- Embedded from `src/unnamed/part_005` (`OPERATORS`): the operator
values offered for each field type. -/
def OPERATORS (fieldType : String) : List String :=
  match fieldType with
  | "number" => ["gt", "gte", "lt", "lte", "eq"]
  | "string" => ["eq", "contains"]
  | "boolean" => ["eq"]
  | "date" => ["lt", "gt"]
  | _ => []

/-- The declared type of a field, looked up in `CUSTOMER_FIELDS`. -/
def fieldTypeOf (field : String) : String :=
  match CUSTOMER_FIELDS.find? (fun p => p.1 == field) with
  | some p => p.2
  | none => ""

/-- The operators the segment builder admits for a field: those offered
for the field's declared type. -/
def admissibleOps (field : String) : List String :=
  OPERATORS (fieldTypeOf field)

theorem list_perm_all {α : Type} {p : α → Bool} {l1 l2 : List α}
    (h : l1.Perm l2) : l1.all p = l2.all p := by
  induction h with
  | nil => rfl
  | cons x _ ih => simp [List.all_cons, ih]
  | swap x y l =>
    simp only [List.all_cons, ← Bool.and_assoc, Bool.and_comm (p y) (p x)]
  | trans _ _ ih1 ih2 => rw [ih1, ih2]

theorem list_perm_any {α : Type} {p : α → Bool} {l1 l2 : List α}
    (h : l1.Perm l2) : l1.any p = l2.any p := by
  induction h with
  | nil => rfl
  | cons x _ ih => simp [List.any_cons, ih]
  | swap x y l =>
    simp only [List.any_cons, ← Bool.or_assoc, Bool.or_comm (p y) (p x)]
  | trans _ _ ih1 ih2 => rw [ih1, ih2]

/-- C1: for every non-empty segment definition, customer record and
evaluation time, `evaluate` under AND is true iff every criterion
evaluates true, and under OR is true iff at least one criterion
evaluates true. -/
theorem claim_C1 (defn : SegmentDefinition) (cust : CustomerRecord)
    (now : Int) (hne : defn.criteria ≠ []) :
    (defn.logicalOperator = .AND →
      (evaluate defn cust now = .ok true ↔
        ∀ c ∈ defn.criteria, evalCriterion now cust c = true)) ∧
    (defn.logicalOperator = .OR →
      (evaluate defn cust now = .ok true ↔
        ∃ c ∈ defn.criteria, evalCriterion now cust c = true)) := by
  have hq : defn.criteria.isEmpty = false := by
    cases h : defn.criteria with
    | nil => exact absurd h hne
    | cons a l => rfl
  constructor
  · intro hop
    simp [evaluate, evalMatch, hop, hq, List.all_eq_true]
  · intro hop
    simp [evaluate, evalMatch, hop, hq, List.any_eq_true]

theorem claim_C1_witness :
    (SegmentDefinition.mk .AND
        [⟨.marketingOptIn, .eq, .bool true⟩]).criteria ≠ [] ∧
    (((SegmentDefinition.mk .AND
          [⟨.marketingOptIn, .eq, .bool true⟩]).logicalOperator = .AND →
      (evaluate (SegmentDefinition.mk .AND
          [⟨.marketingOptIn, .eq, .bool true⟩]) optInCustomer 0 = .ok true ↔
        ∀ c ∈ (SegmentDefinition.mk .AND
          [⟨.marketingOptIn, .eq, .bool true⟩]).criteria,
          evalCriterion 0 optInCustomer c = true)) ∧
    ((SegmentDefinition.mk .AND
          [⟨.marketingOptIn, .eq, .bool true⟩]).logicalOperator = .OR →
      (evaluate (SegmentDefinition.mk .AND
          [⟨.marketingOptIn, .eq, .bool true⟩]) optInCustomer 0 = .ok true ↔
        ∃ c ∈ (SegmentDefinition.mk .AND
          [⟨.marketingOptIn, .eq, .bool true⟩]).criteria,
          evalCriterion 0 optInCustomer c = true))) :=
  ⟨by decide, claim_C1 _ optInCustomer 0 (by decide)⟩

/-- C6: evaluating a segment definition whose criteria list is empty fails
with `InvalidDefinition` for every customer record, customer collection
and evaluation time; it never returns a boolean. -/
theorem claim_C6 (defn : SegmentDefinition) (customers : List CustomerRecord)
    (cust : CustomerRecord) (now : Int) (h : defn.criteria = []) :
    evaluate defn cust now = .error .invalidDefinition ∧
    count defn customers now = .error .invalidDefinition ∧
    ∀ b : Bool, evaluate defn cust now ≠ .ok b := by
  simp [evaluate, count, h]

theorem claim_C6_witness :
    (SegmentDefinition.mk .AND []).criteria = [] ∧
    (evaluate (SegmentDefinition.mk .AND []) noOrderCustomer 0 =
        .error .invalidDefinition ∧
      count (SegmentDefinition.mk .AND []) [noOrderCustomer] 0 =
        .error .invalidDefinition ∧
      ∀ b : Bool, evaluate (SegmentDefinition.mk .AND [])
        noOrderCustomer 0 ≠ .ok b) :=
  ⟨rfl, claim_C6 _ [noOrderCustomer] noOrderCustomer 0 rfl⟩

/-- C9: `evaluate` is invariant under permutation of the criteria list,
the logical operator being unchanged. -/
theorem claim_C9 (d1 d2 : SegmentDefinition) (cust : CustomerRecord)
    (now : Int) (hop : d1.logicalOperator = d2.logicalOperator)
    (hperm : d1.criteria.Perm d2.criteria) :
    evaluate d1 cust now = evaluate d2 cust now := by
  have hlen : d1.criteria.length = d2.criteria.length := hperm.length_eq
  have hemp : d1.criteria.isEmpty = d2.criteria.isEmpty := by
    cases h1 : d1.criteria with
    | nil =>
      cases h2 : d2.criteria with
      | nil => rfl
      | cons b l2 => rw [h1, h2] at hlen; simp at hlen
    | cons a l1 =>
      cases h2 : d2.criteria with
      | nil => rw [h1, h2] at hlen; simp at hlen
      | cons b l2 => rfl
  unfold evaluate evalMatch
  rw [hemp, ← hop]
  cases d1.logicalOperator with
  | AND => rw [list_perm_all hperm]
  | OR => rw [list_perm_any hperm]

theorem claim_C9_witness :
    (SegmentDefinition.mk .OR
        [⟨.orderCount, .gt, .num 1⟩, ⟨.marketingOptIn, .eq, .bool true⟩]
      ).logicalOperator =
      (SegmentDefinition.mk .OR
        [⟨.marketingOptIn, .eq, .bool true⟩, ⟨.orderCount, .gt, .num 1⟩]
      ).logicalOperator ∧
    evaluate (SegmentDefinition.mk .OR
        [⟨.orderCount, .gt, .num 1⟩, ⟨.marketingOptIn, .eq, .bool true⟩])
        optInCustomer 0 =
      evaluate (SegmentDefinition.mk .OR
        [⟨.marketingOptIn, .eq, .bool true⟩, ⟨.orderCount, .gt, .num 1⟩])
        optInCustomer 0 :=
  ⟨rfl, claim_C9 _ _ optInCustomer 0 rfl (by decide)⟩

/-- C3 fails as stated at N = 1000000: for a customer who never ordered,
the `lt relative_1000000` criterion evaluates true (the claim says false)
and the `gt relative_1000000` criterion evaluates false (the claim says
true), because absence is the sentinel distance 999999 days, not a true
infinity. -/
theorem claim_C3_counterexample :
    evalCriterion 0 noOrderCustomer ⟨.lastOrderDate, .lt, .rel 1000000⟩ =
      true ∧
    evalCriterion 0 noOrderCustomer ⟨.lastOrderDate, .gt, .rel 1000000⟩ =
      false := by
  constructor <;> decide

/-- C3 (amended): for every customer record whose `lastOrderDate` is
absent, every evaluation time, and every N strictly below the 999999-day
sentinel, the `lt relative_N` criterion evaluates false and the
`gt relative_N` criterion evaluates true. -/
theorem claim_C3 (cust : CustomerRecord) (now : Int) (n : Nat)
    (habs : cust.lastOrderDate = none) (hn : n < 999999) :
    evalCriterion now cust ⟨.lastOrderDate, .lt, .rel n⟩ = false ∧
    evalCriterion now cust ⟨.lastOrderDate, .gt, .rel n⟩ = true := by
  simp only [evalCriterion, dateCompare, resolveDateValue,
    effectiveLastOrder, habs, NEVER_ORDERED_DAYS, minutesPerDay]
  constructor
  · simp only [decide_eq_false_iff_not, not_lt]
    omega
  · simp only [decide_eq_true_eq]
    omega

theorem claim_C3_witness :
    noOrderCustomer.lastOrderDate = none ∧ 30 < 999999 ∧
    (evalCriterion 0 noOrderCustomer ⟨.lastOrderDate, .lt, .rel 30⟩ =
        false ∧
      evalCriterion 0 noOrderCustomer ⟨.lastOrderDate, .gt, .rel 30⟩ =
        true) :=
  ⟨rfl, by decide, claim_C3 noOrderCustomer 0 30 rfl (by decide)⟩

/-- C2: the campaign lifecycle accepts exactly the transitions of the
spec's table — the six tabled (state, event) pairs succeed with the tabled
target state, every other pair is rejected with `InvalidTransition`, and
the event sequence draft → active → paused → active → completed succeeds
end-to-end. -/
theorem claim_C2 :
    transition .draft .activate = .ok .active ∧
    transition .active .pause = .ok .paused ∧
    transition .active .complete = .ok .completed ∧
    transition .paused .resume = .ok .active ∧
    transition .paused .complete = .ok .completed ∧
    transition .draft .edit = .ok .draft ∧
    (∀ s e, transition s e ≠ .error .invalidTransition ↔
      ((s = .draft ∧ e = .activate) ∨ (s = .active ∧ e = .pause) ∨
       (s = .active ∧ e = .complete) ∨ (s = .paused ∧ e = .resume) ∨
       (s = .paused ∧ e = .complete) ∨ (s = .draft ∧ e = .edit))) ∧
    runEvents .draft [.activate, .pause, .resume, .complete] =
      .ok .completed := by
  refine ⟨rfl, rfl, rfl, rfl, rfl, rfl, ?_, rfl⟩
  intro s e
  cases s <;> cases e <;> simp [transition]

theorem planSteps_deliverables (steps : List FlowStep) :
    ∀ t : Int, (planSteps steps t).map (fun x => x.step) =
      (steps.takeWhile (fun s => !isExitStep s)).filter
        (fun s => isSendStep s) := by
  induction steps with
  | nil => intro t; rfl
  | cons s rest ih =>
    intro t
    obtain ⟨o, cfg⟩ := s
    cases cfg <;>
      simp [planSteps, List.takeWhile_cons, isExitStep, isSendStep,
        List.filter_cons, ih]

/-- C4: the deliverables returned by `plan` are exactly the SEND_EMAIL and
SEND_PUSH steps that precede the first EXIT step, in order (all such steps
when there is no EXIT); no step at or after an EXIT appears in the
output. -/
theorem claim_C4 (steps : List FlowStep) (campaignStart : Int)
    (startTimeOfDay : Option Int) (out : List ScheduledStep)
    (h : plan steps campaignStart startTimeOfDay = .ok out) :
    out.map (fun x => x.step) =
      (steps.takeWhile (fun s => !isExitStep s)).filter
        (fun s => isSendStep s) := by
  unfold plan at h
  split at h
  · injection h with h2
    subst h2
    exact planSteps_deliverables steps _
  · exact absurd h (by simp)

theorem claim_C4_witness :
    plan [⟨1, .sendEmail "a" "b"⟩, ⟨2, .exitStep⟩, ⟨3, .sendEmail "c" "d"⟩]
        0 none = .ok [⟨⟨1, .sendEmail "a" "b"⟩, 0⟩] ∧
    ([(⟨⟨1, .sendEmail "a" "b"⟩, 0⟩ : ScheduledStep)].map (fun x => x.step) =
      (([⟨1, .sendEmail "a" "b"⟩, ⟨2, .exitStep⟩,
          ⟨3, .sendEmail "c" "d"⟩] : List FlowStep).takeWhile
        (fun s => !isExitStep s)).filter (fun s => isSendStep s)) :=
  ⟨rfl, claim_C4 _ 0 none _ rfl⟩

theorem planSteps_lb_chain :
    ∀ (steps : List FlowStep) (t : Int),
      (∀ s ∈ steps, waitNonneg s = true) →
      (∀ x ∈ planSteps steps t, t ≤ x.absoluteSendTime) ∧
      List.Chain' (fun a b : ScheduledStep =>
        a.absoluteSendTime ≤ b.absoluteSendTime) (planSteps steps t)
  | [], t, _ => by simp [planSteps]
  | s :: rest, t, hw => by
    have hw' : ∀ x ∈ rest, waitNonneg x = true :=
      fun x hx => hw x (List.mem_cons_of_mem _ hx)
    obtain ⟨o, cfg⟩ := s
    cases cfg with
    | sendEmail a b =>
      have h := planSteps_lb_chain rest t hw'
      refine ⟨?_, ?_⟩
      · intro x hx
        simp only [planSteps, List.mem_cons] at hx
        rcases hx with h1 | h2
        · subst h1; exact le_refl t
        · exact h.1 x h2
      · show List.Chain' _ (⟨⟨o, .sendEmail a b⟩, t⟩ :: planSteps rest t)
        rw [List.chain'_cons']
        exact ⟨fun y hy => h.1 y (List.mem_of_mem_head? hy), h.2⟩
    | sendPush a b =>
      have h := planSteps_lb_chain rest t hw'
      refine ⟨?_, ?_⟩
      · intro x hx
        simp only [planSteps, List.mem_cons] at hx
        rcases hx with h1 | h2
        · subst h1; exact le_refl t
        · exact h.1 x h2
      · show List.Chain' _ (⟨⟨o, .sendPush a b⟩, t⟩ :: planSteps rest t)
        rw [List.chain'_cons']
        exact ⟨fun y hy => h.1 y (List.mem_of_mem_head? hy), h.2⟩
    | wait d =>
      have hd : (0 : Int) ≤ d := by
        have hs := hw ⟨o, .wait d⟩ (List.mem_cons_self _ _)
        simpa [waitNonneg] using hs
      have hstep : t ≤ t + d * minutesPerDay := by
        have : (0 : Int) ≤ d * minutesPerDay :=
          mul_nonneg hd (by norm_num [minutesPerDay])
        linarith
      have h := planSteps_lb_chain rest (t + d * minutesPerDay) hw'
      refine ⟨?_, ?_⟩
      · intro x hx
        simp only [planSteps] at hx
        exact le_trans hstep (h.1 x hx)
      · simpa [planSteps] using h.2
    | exitStep => simp [planSteps]

/-- C5: `plan`'s output send times are non-decreasing in input step order,
and a WAIT step of `durationDays` d between two send steps schedules the
second send exactly d days after the first send's running time. -/
theorem claim_C5 :
    (∀ (steps : List FlowStep) (campaignStart : Int)
        (startTimeOfDay : Option Int) (out : List ScheduledStep),
      plan steps campaignStart startTimeOfDay = .ok out →
      List.Chain' (fun a b : ScheduledStep =>
        a.absoluteSendTime ≤ b.absoluteSendTime) out) ∧
    (∀ (s1 s2 : FlowStep) (o : Nat) (d : Int) (rest : List FlowStep)
        (t : Int), isSendStep s1 = true → isSendStep s2 = true →
      planSteps (s1 :: ⟨o, .wait d⟩ :: s2 :: rest) t =
        ⟨s1, t⟩ :: ⟨s2, t + d * minutesPerDay⟩ ::
          planSteps rest (t + d * minutesPerDay)) := by
  constructor
  · intro steps campaignStart startTimeOfDay out h
    unfold plan at h
    split at h
    · rename_i hcond
      injection h with h2
      subst h2
      have hall : ∀ s ∈ steps, waitNonneg s = true :=
        List.all_eq_true.mp ((Bool.and_eq_true _ _ |>.mp hcond).2)
      exact (planSteps_lb_chain steps _ hall).2
    · exact absurd h (by simp)
  · intro s1 s2 o d rest t hs1 hs2
    obtain ⟨o1, c1⟩ := s1
    obtain ⟨o2, c2⟩ := s2
    cases c1 <;> cases c2 <;> simp_all [isSendStep, planSteps]

theorem claim_C5_witness :
    List.Chain' (fun a b : ScheduledStep =>
        a.absoluteSendTime ≤ b.absoluteSendTime)
      [⟨⟨1, .sendEmail "a" "b"⟩, 0⟩, ⟨⟨3, .sendPush "t" "m"⟩, 4320⟩] ∧
    planSteps [⟨1, .sendEmail "a" "b"⟩, ⟨2, .wait 3⟩,
        ⟨3, .sendPush "t" "m"⟩] 0 =
      [⟨⟨1, .sendEmail "a" "b"⟩, 0⟩, ⟨⟨3, .sendPush "t" "m"⟩, 4320⟩] := by
  constructor
  · exact claim_C5.1 [⟨1, .sendEmail "a" "b"⟩, ⟨2, .wait 3⟩,
      ⟨3, .sendPush "t" "m"⟩] 0 none _ rfl
  · have h := claim_C5.2 ⟨1, .sendEmail "a" "b"⟩ ⟨3, .sendPush "t" "m"⟩
      2 3 [] 0 rfl rfl
    rw [h]
    norm_num [planSteps, minutesPerDay]

theorem ordersFrom_iff (steps : List FlowStep) :
    ∀ k : Nat, ordersFrom k steps = true ↔
      steps.map (fun s => s.step_order) = List.range' k steps.length := by
  induction steps with
  | nil => intro k; simp [ordersFrom]
  | cons s rest ih =>
    intro k
    rw [show (s :: rest).length = rest.length + 1 from rfl,
      List.range'_succ k rest.length 1]
    simp [ordersFrom, ih (k + 1), Bool.and_eq_true, beq_iff_eq]

theorem waitNonneg_iff (s : FlowStep) :
    waitNonneg s = true ↔ ∀ d : Int, s.config = .wait d → 0 ≤ d := by
  obtain ⟨o, cfg⟩ := s
  cases cfg <;> simp [waitNonneg]

/-- C7: `plan` fails with `InvalidFlow` exactly when the `step_order`
values are not the contiguous ascending sequence 1..n or some WAIT step
has negative `durationDays`; every step list satisfying both conditions is
planned without error. -/
theorem claim_C7 (steps : List FlowStep) (campaignStart : Int)
    (startTimeOfDay : Option Int) :
    (plan steps campaignStart startTimeOfDay = .error .invalidFlow ↔
      ¬(ordersOk steps ∧
        ∀ s ∈ steps, ∀ d : Int, s.config = .wait d → 0 ≤ d)) ∧
    ((ordersOk steps ∧ ∀ s ∈ steps, ∀ d : Int, s.config = .wait d → 0 ≤ d) →
      ∃ out, plan steps campaignStart startTimeOfDay = .ok out) := by
  have hchar : (ordersFrom 1 steps && steps.all waitNonneg) = true ↔
      (ordersOk steps ∧
        ∀ s ∈ steps, ∀ d : Int, s.config = .wait d → 0 ≤ d) := by
    rw [Bool.and_eq_true, ordersFrom_iff steps 1, List.all_eq_true]
    constructor
    · rintro ⟨h1, h2⟩
      exact ⟨h1, fun s hs => (waitNonneg_iff s).mp (h2 s hs)⟩
    · rintro ⟨h1, h2⟩
      exact ⟨h1, fun s hs => (waitNonneg_iff s).mpr (h2 s hs)⟩
  cases hcond : (ordersFrom 1 steps && steps.all waitNonneg) with
  | false =>
    have hne : ¬(ordersOk steps ∧
        ∀ s ∈ steps, ∀ d : Int, s.config = .wait d → 0 ≤ d) := by
      intro hs
      rw [hchar.mpr hs] at hcond
      cases hcond
    constructor
    · constructor
      · intro _; exact hne
      · intro _
        unfold plan
        rw [if_neg (by simp [hcond])]
    · intro hs; exact absurd hs hne
  | true =>
    have hsat := hchar.mp hcond
    constructor
    · constructor
      · intro herr
        unfold plan at herr
        rw [if_pos hcond] at herr
        exact absurd herr (by simp)
      · intro hn; exact absurd hsat hn
    · intro _
      refine ⟨planSteps steps (startInstant campaignStart startTimeOfDay), ?_⟩
      unfold plan
      rw [if_pos hcond]

theorem claim_C7_witness :
    ∃ out, plan [⟨1, .sendEmail "a" "b"⟩] 0 none = .ok out :=
  (claim_C7 [⟨1, .sendEmail "a" "b"⟩] 0 none).2 ⟨by decide, by simp⟩

/-- C8 fails as stated: the segment builder's operator table for date
fields does not admit `eq` — `OPERATORS.date` in `src/unnamed/part_005`
lists only `lt` and `gt`, so `eq` is not admissible for the date field
`last_order_date`. -/
theorem claim_C8_counterexample : "eq" ∉ admissibleOps "last_order_date" := by
  decide

/-- C8 (amended): the set of admissible operators is determined by the
field's declared type — numeric fields admit gt, lt, gte, lte, eq; string
fields admit eq and contains; boolean fields admit eq; and date fields
admit gt and lt (not eq). -/
theorem claim_C8 (op : String) :
    (op ∈ admissibleOps "total_order_value" ↔
      op = "gt" ∨ op = "lt" ∨ op = "gte" ∨ op = "lte" ∨ op = "eq") ∧
    (op ∈ admissibleOps "order_count" ↔
      op = "gt" ∨ op = "lt" ∨ op = "gte" ∨ op = "lte" ∨ op = "eq") ∧
    (op ∈ admissibleOps "days_since_last_order" ↔
      op = "gt" ∨ op = "lt" ∨ op = "gte" ∨ op = "lte" ∨ op = "eq") ∧
    (op ∈ admissibleOps "shipping_state" ↔ op = "eq" ∨ op = "contains") ∧
    (op ∈ admissibleOps "shipping_country" ↔ op = "eq" ∨ op = "contains") ∧
    (op ∈ admissibleOps "email" ↔ op = "eq" ∨ op = "contains") ∧
    (op ∈ admissibleOps "marketing_opt_in" ↔ op = "eq") ∧
    (op ∈ admissibleOps "last_order_date" ↔ op = "gt" ∨ op = "lt") := by
  have h1 : admissibleOps "total_order_value" =
    ["gt", "gte", "lt", "lte", "eq"] := rfl
  have h2 : admissibleOps "order_count" =
    ["gt", "gte", "lt", "lte", "eq"] := rfl
  have h3 : admissibleOps "days_since_last_order" =
    ["gt", "gte", "lt", "lte", "eq"] := rfl
  have h4 : admissibleOps "shipping_state" = ["eq", "contains"] := rfl
  have h5 : admissibleOps "shipping_country" = ["eq", "contains"] := rfl
  have h6 : admissibleOps "email" = ["eq", "contains"] := rfl
  have h7 : admissibleOps "marketing_opt_in" = ["eq"] := rfl
  have h8 : admissibleOps "last_order_date" = ["lt", "gt"] := rfl
  refine ⟨?_, ?_, ?_, ?_, ?_, ?_, ?_, ?_⟩ <;>
    simp only [h1, h2, h3, h4, h5, h6, h7, h8, List.mem_cons,
      List.mem_singleton, List.not_mem_nil, or_false] <;>
    tauto

theorem renumberFrom_orders (l : List FlowStep) :
    ∀ k : Nat, (renumberFrom k l).map (fun s => s.step_order) =
      List.range' k l.length := by
  induction l with
  | nil => intro k; simp [renumberFrom]
  | cons s rest ih =>
    intro k
    rw [show (s :: rest).length = rest.length + 1 from rfl,
      List.range'_succ k rest.length 1]
    simp [renumberFrom, ih (k + 1)]

theorem renumberFrom_length (l : List FlowStep) :
    ∀ k : Nat, (renumberFrom k l).length = l.length := by
  induction l with
  | nil => intro k; rfl
  | cons s rest ih => intro k; simp [renumberFrom, ih (k + 1)]

theorem renumberFrom_configs (l : List FlowStep) :
    ∀ k : Nat, (renumberFrom k l).map (fun s => s.config) =
      l.map (fun s => s.config) := by
  induction l with
  | nil => intro k; rfl
  | cons s rest ih => intro k; simp [renumberFrom, ih (k + 1)]

/-- C10: the flow step editor's operations preserve the invariant that
`step_order` values form the contiguous sequence 1..n — `addStep` appends
a step of order n+1 (preserving the invariant), and `removeStep`
unconditionally renumbers the remaining steps to 1..n-1 in their retained
order, preserving their configurations. -/
theorem claim_C10 (steps : List FlowStep) (index : Nat) :
    (ordersOk steps → ordersOk (addStep steps)) ∧
    (addStep steps).map (fun s => s.step_order) =
      steps.map (fun s => s.step_order) ++ [steps.length + 1] ∧
    ordersOk (removeStep steps index) ∧
    (removeStep steps index).map (fun s => s.config) =
      (steps.eraseIdx index).map (fun s => s.config) := by
  refine ⟨?_, ?_, ?_, ?_⟩
  · intro h
    show (addStep steps).map (fun s => s.step_order) =
      List.range' 1 (addStep steps).length
    have hlen : (addStep steps).length = steps.length + 1 := by
      simp [addStep]
    have hcat : List.range' 1 (steps.length + 1) =
        List.range' 1 steps.length ++ [1 + 1 * steps.length] :=
      List.range'_concat 1 steps.length
    rw [hlen, hcat]
    simp only [addStep, List.map_append, h]
    simp [Nat.add_comm]
  · simp [addStep]
  · show (removeStep steps index).map (fun s => s.step_order) =
      List.range' 1 (removeStep steps index).length
    unfold removeStep
    rw [renumberFrom_orders, renumberFrom_length]
  · unfold removeStep
    rw [renumberFrom_configs]

theorem claim_C10_witness :
    ordersOk (addStep [⟨1, .sendEmail "a" "b"⟩, ⟨2, .wait 3⟩]) ∧
    ordersOk (removeStep [⟨1, .sendEmail "a" "b"⟩, ⟨2, .wait 3⟩] 0) :=
  ⟨(claim_C10 [⟨1, .sendEmail "a" "b"⟩, ⟨2, .wait 3⟩] 0).1 (by decide),
   (claim_C10 [⟨1, .sendEmail "a" "b"⟩, ⟨2, .wait 3⟩] 0).2.2.1⟩

end ECA2
